import Mathlib

/-!
Verification of the scroll-driven image-sequence animator
(`VideoScrollSequence`): the frame loader, the progress-to-frame mapping,
the canvas painting step, the bind-effect guard, and the text-reveal
timeline placement.  Continuous scroll progress is modelled as a rational
number; image handles carry their natural pixel dimensions.
-/

/-- A loaded image handle, exposing its natural pixel dimensions
(`img.width`, `img.height` in the source). -/
structure Image where
  width : ℕ
  height : ℕ
  deriving DecidableEq, Repr

/-- Observable mutations performed on the canvas 2d context by `drawFrame`:
`context.clearRect(0, 0, w, h)` and `context.drawImage(img, 0, 0, w, h)`. -/
inductive CanvasOp where
  | clearRect (w h : ℕ)
  | drawImage (img : Image) (w h : ℕ)
  deriving DecidableEq, Repr

/-- The canvas: backing-buffer dimensions (`canvas.width`, `canvas.height`),
a counter of backing-buffer reallocations (each assignment pair
`canvas.width = ...; canvas.height = ...` reallocates the buffer once), and
the log of context operations. -/
structure Canvas where
  width : ℕ
  height : ℕ
  reallocCount : ℕ
  ops : List CanvasOp
  deriving DecidableEq, Repr

/-- The index clamp at the top of `drawFrame`:
`Math.min(totalFrames - 1, Math.max(0, Math.floor(index)))`. -/
def frameIndexClamp (totalFrames : ℕ) (index : ℚ) : ℤ :=
  min ((totalFrames : ℤ) - 1) (max 0 ⌊index⌋)

/-- JavaScript array indexing `imageFrames[i]` for an integer index:
`undefined` (`none`) when the index is negative or out of range. -/
def getFrame (imageFrames : List Image) (i : ℤ) : Option Image :=
  if 0 ≤ i then imageFrames.get? i.toNat else none

/-- The body of `drawFrame`: clamp the real index, look the frame up in
`imageFrames`; when present, resize the backing buffer only if its
dimensions differ from the frame's, then clear and draw; when absent, do
nothing. -/
def drawFrame (totalFrames : ℕ) (imageFrames : List Image) (index : ℚ)
    (canvas : Canvas) : Canvas :=
  match getFrame imageFrames (frameIndexClamp totalFrames index) with
  | some img =>
      let c1 : Canvas :=
        if canvas.width ≠ img.width ∨ canvas.height ≠ img.height then
          { canvas with
            width := img.width
            height := img.height
            reallocCount := canvas.reallocCount + 1 }
        else canvas
      { c1 with
        ops := c1.ops ++
          [CanvasOp.clearRect img.width img.height,
           CanvasOp.drawImage img img.width img.height] }
  | none => canvas

/-- The `onUpdate` computation: `newIndex = scrollProgress * (totalFrames - 1)`. -/
def onUpdateIndex (totalFrames : ℕ) (progress : ℚ) : ℚ :=
  progress * ((totalFrames : ℚ) - 1)

/-- The renderer's progress-to-frame mapping: the `onUpdate` computation
followed by `drawFrame`'s index clamp. -/
def mapProgressToFrame (totalFrames : ℕ) (progress : ℚ) : ℤ :=
  frameIndexClamp totalFrames (onUpdateIndex totalFrames progress)

/-- The specification's formula, written as it appears in the spec:
`clamp(round_down(progress × (totalFrames − 1)), 0, totalFrames − 1)`,
with `clamp(v, lo, hi) = min(max(v, lo), hi)`. -/
def mapProgressToFrameSpec (totalFrames : ℕ) (progress : ℚ) : ℤ :=
  min (max ⌊progress * ((totalFrames : ℚ) - 1)⌋ 0) ((totalFrames : ℤ) - 1)

/-- C1: for every totalFrames ≥ 1 and every progress in [0,1], the composed
progress-to-frame mapping returns exactly
`min(totalFrames - 1, max(0, floor(progress * (totalFrames - 1))))`, which
coincides with the spec's clamp formula. -/
theorem mapProgressToFrame_eq_spec (totalFrames : ℕ) (progress : ℚ)
    (hT : 1 ≤ totalFrames) (h0 : 0 ≤ progress) (h1 : progress ≤ 1) :
    mapProgressToFrame totalFrames progress =
      min ((totalFrames : ℤ) - 1)
        (max 0 ⌊progress * ((totalFrames : ℚ) - 1)⌋) ∧
    mapProgressToFrame totalFrames progress =
      mapProgressToFrameSpec totalFrames progress := by
  refine ⟨rfl, ?_⟩
  unfold mapProgressToFrame mapProgressToFrameSpec frameIndexClamp onUpdateIndex
  rw [max_comm, min_comm]

/-- Witness for C1 at totalFrames = 48, progress = 1/2 (the spec's scenario:
the mapped index is floor(0.5 × 47) = 23). -/
theorem mapProgressToFrame_eq_spec_witness :
    mapProgressToFrame 48 (1/2) =
      min ((48 : ℤ) - 1) (max 0 ⌊(1/2 : ℚ) * ((48 : ℚ) - 1)⌋) ∧
    mapProgressToFrame 48 (1/2) = mapProgressToFrameSpec 48 (1/2) :=
  mapProgressToFrame_eq_spec 48 (1/2) (by decide) (by norm_num) (by norm_num)

/-- C2: for totalFrames ≥ 1 the progress-to-frame mapping is monotonic
non-decreasing on [0,1], and its value lies in [0, totalFrames - 1]. -/
theorem mapProgressToFrame_monotone_and_range (totalFrames : ℕ) (p q : ℚ)
    (hT : 1 ≤ totalFrames) (hp0 : 0 ≤ p) (hpq : p ≤ q) (hq1 : q ≤ 1) :
    mapProgressToFrame totalFrames p ≤ mapProgressToFrame totalFrames q ∧
    0 ≤ mapProgressToFrame totalFrames p ∧
    mapProgressToFrame totalFrames p ≤ (totalFrames : ℤ) - 1 := by
  have hT1 : (0 : ℚ) ≤ (totalFrames : ℚ) - 1 := by
    have : (1 : ℚ) ≤ (totalFrames : ℚ) := by exact_mod_cast hT
    linarith
  have hTZ : (0 : ℤ) ≤ (totalFrames : ℤ) - 1 := by
    have : (1 : ℤ) ≤ (totalFrames : ℤ) := by exact_mod_cast hT
    omega
  refine ⟨?_, ?_, ?_⟩
  · unfold mapProgressToFrame frameIndexClamp onUpdateIndex
    have hmul : p * ((totalFrames : ℚ) - 1) ≤ q * ((totalFrames : ℚ) - 1) :=
      mul_le_mul_of_nonneg_right hpq hT1
    exact min_le_min le_rfl (max_le_max le_rfl (Int.floor_le_floor hmul))
  · unfold mapProgressToFrame frameIndexClamp onUpdateIndex
    exact le_min hTZ (le_max_left 0 _)
  · unfold mapProgressToFrame frameIndexClamp onUpdateIndex
    exact min_le_left _ _

/-- Witness for C2 at totalFrames = 48, p = 1/4, q = 1/2. -/
theorem mapProgressToFrame_monotone_and_range_witness :
    mapProgressToFrame 48 (1/4) ≤ mapProgressToFrame 48 (1/2) ∧
    0 ≤ mapProgressToFrame 48 (1/4) ∧
    mapProgressToFrame 48 (1/4) ≤ (48 : ℤ) - 1 :=
  mapProgressToFrame_monotone_and_range 48 (1/4) (1/2) (by decide)
    (by norm_num) (by norm_num) (by norm_num)

/-- The mutable state threaded through `loadImages`: the sparse
`loadedImages` array (a slot per target position), the `console.error` log
(recorded by failing position), the `isFirstImageLoaded` flag, and a count
of resolved promises (`Promise.all` settles once this reaches the number of
issued fetches). -/
structure LoaderState where
  slots : ℕ → Option Image
  errorLog : List ℕ
  firstLoaded : Bool
  processed : ℕ

/-- The loader's initial state: empty `loadedImages`, nothing logged,
`isFirstImageLoaded` false, no promise resolved. -/
def initState : LoaderState :=
  { slots := fun _ => none, errorLog := [], firstLoaded := false,
    processed := 0 }

/-- Resolution of one fetch, exactly as the `onload` / `onerror` handlers in
`loadImages` behave: `onload` writes `loadedImages[pos]`, additionally sets
`isFirstImageLoaded` when `pos = 0` (the `firstFrameSrc` fetch), and
resolves; `onerror` logs the failure and resolves, writing nothing and
leaving the flag alone. -/
def applyFetchResult (st : LoaderState) (e : ℕ × Option Image) : LoaderState :=
  match e with
  | (pos, some img) =>
      { st with
        slots := fun j => if j = pos then some img else st.slots j
        firstLoaded := if pos = 0 then true else st.firstLoaded
        processed := st.processed + 1 }
  | (pos, none) =>
      { st with
        errorLog := st.errorLog ++ [pos]
        processed := st.processed + 1 }

/-- The fetches issued by `loadImages`, keyed by target position with their
eventual outcome: the `firstFrameSrc` fetch targets position 0 (source
index 1), and the loop `for i = 2 .. totalFrames` issues a fetch for source
index `i` targeting position `i - 1`.  `fetchResult j` is the outcome of
fetching source index `j`. -/
def issuedEvents (totalFrames : ℕ) (fetchResult : ℕ → Option Image) :
    List (ℕ × Option Image) :=
  (0, fetchResult 1) ::
    (List.range' 2 (totalFrames - 1)).map (fun i => (i - 1, fetchResult i))

/-- `loadedImages.filter(Boolean)`: the successes in position order,
compacted. -/
def emittedFrameSet (st : LoaderState) (totalFrames : ℕ) : List Image :=
  (List.range totalFrames).filterMap st.slots

lemma processed_foldl (events : List (ℕ × Option Image)) (st : LoaderState) :
    (events.foldl applyFetchResult st).processed =
      st.processed + events.length := by
  induction events generalizing st with
  | nil => simp
  | cons e rest ih =>
      obtain ⟨pos, o⟩ := e
      cases o with
      | none =>
          rw [List.foldl_cons, ih]
          simp [applyFetchResult]
          omega
      | some img =>
          rw [List.foldl_cons, ih]
          simp [applyFetchResult]
          omega

lemma errorLog_foldl (events : List (ℕ × Option Image)) (st : LoaderState) :
    (events.foldl applyFetchResult st).errorLog =
      st.errorLog ++ (events.filter (fun p => p.2.isNone)).map Prod.fst := by
  induction events generalizing st with
  | nil => simp
  | cons e rest ih =>
      obtain ⟨pos, o⟩ := e
      cases o with
      | none =>
          rw [List.foldl_cons, ih]
          simp [applyFetchResult, List.filter_cons]
      | some img =>
          rw [List.foldl_cons, ih]
          simp [applyFetchResult, List.filter_cons]

lemma slots_foldl_of_notin (events : List (ℕ × Option Image))
    (st : LoaderState) (k : ℕ) (h : ∀ p ∈ events, p.1 ≠ k) :
    (events.foldl applyFetchResult st).slots k = st.slots k := by
  induction events generalizing st with
  | nil => rfl
  | cons e rest ih =>
      obtain ⟨pos, o⟩ := e
      have hpos : pos ≠ k := h (pos, o) (List.mem_cons_self _ _)
      rw [List.foldl_cons,
        ih _ (fun p hp => h p (List.mem_cons_of_mem _ hp))]
      cases o with
      | none => rfl
      | some img =>
          simp only [applyFetchResult]
          exact if_neg (fun hk => hpos hk.symm)

lemma slots_foldl_unique (events : List (ℕ × Option Image)) (k : ℕ)
    (img : Image)
    (hmem : ((k, some img) : ℕ × Option Image) ∈ events)
    (huniq : ∀ p ∈ events, p.1 = k → p = (k, some img)) :
    ∀ st : LoaderState,
      (events.foldl applyFetchResult st).slots k = some img := by
  induction events with
  | nil => cases hmem
  | cons e rest ih =>
      intro st
      rw [List.foldl_cons]
      by_cases hr : ((k, some img) : ℕ × Option Image) ∈ rest
      · exact ih hr (fun p hp hk => huniq p (List.mem_cons_of_mem _ hp) hk) _
      · have he : e = (k, some img) := by
          rcases List.mem_cons.mp hmem with h | h
          · exact h.symm
          · exact absurd h hr
        have hnone : ∀ p ∈ rest, p.1 ≠ k := by
          intro p hp hpk
          have hpe := huniq p (List.mem_cons_of_mem _ hp) hpk
          exact hr (hpe ▸ hp)
        rw [slots_foldl_of_notin rest _ k hnone, he]
        simp [applyFetchResult]

lemma issuedEvents_eq (totalFrames : ℕ) (hT : 1 ≤ totalFrames)
    (fetchResult : ℕ → Option Image) :
    issuedEvents totalFrames fetchResult =
      (List.range totalFrames).map (fun k => (k, fetchResult (k + 1))) := by
  obtain ⟨n, rfl⟩ : ∃ n, totalFrames = n + 1 :=
    ⟨totalFrames - 1, (Nat.succ_pred_eq_of_pos hT).symm⟩
  unfold issuedEvents
  rw [List.range_succ_eq_map, List.map_cons, Nat.add_sub_cancel,
    List.range'_eq_map_range, List.map_map, List.map_map]
  refine congrArg (fun l => (0, fetchResult 1) :: l) ?_
  refine List.map_congr_left ?_
  intro a _
  simp [Function.comp]
  constructor
  · omega
  · refine congrArg fetchResult ?_
    omega

lemma issuedEvents_mem_elim (totalFrames : ℕ) (hT : 1 ≤ totalFrames)
    (fetchResult : ℕ → Option Image) (p : ℕ × Option Image)
    (hp : p ∈ issuedEvents totalFrames fetchResult) :
    p = (p.1, fetchResult (p.1 + 1)) ∧ p.1 < totalFrames := by
  rw [issuedEvents_eq totalFrames hT] at hp
  obtain ⟨a, ha, rfl⟩ := List.mem_map.mp hp
  exact ⟨rfl, List.mem_range.mp ha⟩

lemma issuedEvents_mem_intro (totalFrames : ℕ) (hT : 1 ≤ totalFrames)
    (fetchResult : ℕ → Option Image) (k : ℕ) (hk : k < totalFrames) :
    ((k, fetchResult (k + 1)) : ℕ × Option Image) ∈
      issuedEvents totalFrames fetchResult := by
  rw [issuedEvents_eq totalFrames hT]
  exact List.mem_map.mpr ⟨k, List.mem_range.mpr hk, rfl⟩

lemma filterMap_range_all_some (n : ℕ) (f : ℕ → Option Image)
    (g : ℕ → Image) (h : ∀ j < n, f j = some (g j)) :
    (List.range n).filterMap f = (List.range n).map g := by
  induction n with
  | zero => rfl
  | succ m ih =>
      rw [List.range_succ, List.filterMap_append, List.map_append,
        ih (fun j hj => h j (Nat.lt_succ_of_lt hj))]
      simp [h m (Nat.lt_succ_self m)]

/-- C4: when every fetch succeeds, position `k` of the emitted FrameSet is
the image loaded for source index `k + 1` (position 0 holds the image
fetched from `firstFrameSrc`), for any completion order of the concurrent
fetches — the resolutions may be applied in any permutation of the issue
order. -/
theorem frameSet_order_independent (totalFrames : ℕ) (srcImg : ℕ → Image)
    (events : List (ℕ × Option Image))
    (hT : 1 ≤ totalFrames)
    (hperm : events.Perm
      (issuedEvents totalFrames (fun j => some (srcImg j))))
    (k : ℕ) (hk : k < totalFrames) :
    (emittedFrameSet (events.foldl applyFetchResult initState)
        totalFrames)[k]? = some (srcImg (k + 1)) := by
  have hslots : ∀ j, j < totalFrames →
      (events.foldl applyFetchResult initState).slots j =
        some (srcImg (j + 1)) := by
    intro j hj
    refine slots_foldl_unique events j (srcImg (j + 1)) ?_ ?_ initState
    · exact hperm.mem_iff.mpr
        (issuedEvents_mem_intro totalFrames hT _ j hj)
    · intro p hp hpk
      have hel := issuedEvents_mem_elim totalFrames hT _ p
        (hperm.mem_iff.mp hp)
      rw [hel.1, hpk]
  unfold emittedFrameSet
  rw [filterMap_range_all_some totalFrames _ (fun j => srcImg (j + 1)) hslots,
    List.getElem?_map, List.getElem?_range hk]
  rfl

/-- Witness for C4: totalFrames = 3, the three fetches resolving in reverse
issue order; position 1 holds the image of source index 2. -/
theorem frameSet_order_independent_witness :
    (emittedFrameSet
        (((issuedEvents 3
            (fun j => some (Image.mk (100 + j) (200 + j)))).reverse).foldl
          applyFetchResult initState) 3)[1]? =
      some (Image.mk 102 202) :=
  frameSet_order_independent 3 (fun j => Image.mk (100 + j) (200 + j)) _
    (by decide) (List.reverse_perm _) 1 (by decide)

/-- C5: whatever the fetch outcomes and their completion order, the loader
settles only after all `totalFrames` issued fetches have resolved
(`processed = totalFrames`, no early exit on failure); each failed fetch is
logged (one log entry per failure) and treated as absent, without throwing
(resolution is a total function); every successful fetch still lands in its
slot, so failures do not abort sibling fetches. -/
theorem loader_settles_tolerating_failures (totalFrames : ℕ)
    (fetchResult : ℕ → Option Image) (events : List (ℕ × Option Image))
    (hT : 1 ≤ totalFrames)
    (hperm : events.Perm (issuedEvents totalFrames fetchResult)) :
    (events.foldl applyFetchResult initState).processed = totalFrames ∧
    (events.foldl applyFetchResult initState).errorLog.length =
      ((List.range totalFrames).filter
        (fun k => (fetchResult (k + 1)).isNone)).length ∧
    ∀ k, k < totalFrames → ∀ img, fetchResult (k + 1) = some img →
      (events.foldl applyFetchResult initState).slots k = some img := by
  refine ⟨?_, ?_, ?_⟩
  · rw [processed_foldl, hperm.length_eq, issuedEvents_eq totalFrames hT,
      List.length_map, List.length_range]
    simp [initState]
  · rw [errorLog_foldl]
    simp only [initState, List.nil_append, List.length_map]
    rw [(hperm.filter _).length_eq, issuedEvents_eq totalFrames hT,
      List.filter_map, List.length_map]
    rfl
  · intro k hk img himg
    refine slots_foldl_unique events k img ?_ ?_ initState
    · have := issuedEvents_mem_intro totalFrames hT fetchResult k hk
      rw [himg] at this
      exact hperm.mem_iff.mpr this
    · intro p hp hpk
      have hel := issuedEvents_mem_elim totalFrames hT _ p
        (hperm.mem_iff.mp hp)
      rw [hel.1, hpk, himg]

/-- Witness for C5: totalFrames = 3, source index 2 fails, the three
resolutions arriving in reverse issue order. -/
theorem loader_settles_tolerating_failures_witness :
    (((issuedEvents 3
        (fun j => if j = 2 then none else some (Image.mk j j))).reverse).foldl
      applyFetchResult initState).processed = 3 ∧
    (((issuedEvents 3
        (fun j => if j = 2 then none else some (Image.mk j j))).reverse).foldl
      applyFetchResult initState).errorLog.length =
      ((List.range 3).filter
        (fun k => (if k + 1 = 2 then none
          else some (Image.mk (k + 1) (k + 1)) : Option Image).isNone)).length ∧
    ∀ k, k < 3 → ∀ img,
      (if k + 1 = 2 then none else some (Image.mk (k + 1) (k + 1))) =
        some img →
      (((issuedEvents 3
          (fun j => if j = 2 then none else some (Image.mk j j))).reverse).foldl
        applyFetchResult initState).slots k = some img :=
  loader_settles_tolerating_failures 3
    (fun j => if j = 2 then none else some (Image.mk j j)) _
    (by decide) (List.reverse_perm _)

/-- The load states of the data model: `Ready` when every frame loaded,
`PartiallyReady` otherwise; both terminal. -/
inductive LoadState where
  | Loading
  | Ready (successCount : ℕ)
  | PartiallyReady (successCount : ℕ)
  deriving DecidableEq, Repr

/-- Outcome of the settlement tail of `loadImages`: the terminal load
state, the `console.warn` emissions (each recording
`(successCount, totalFrames)`), and the `isLoading` flag it leaves. -/
structure SettleOutcome where
  state : LoadState
  warnings : List (ℕ × ℕ)
  isLoading : Bool
  deriving DecidableEq, Repr

/-- The code after `await Promise.all`: if `successfulLoads.length ===
totalFrames` it just clears `isLoading` (state `Ready`); otherwise it emits
one `console.warn` naming the counts and still clears `isLoading` (state
`PartiallyReady`). -/
def settleLoad (successCount totalFrames : ℕ) : SettleOutcome :=
  if successCount = totalFrames then
    { state := LoadState.Ready successCount, warnings := [],
      isLoading := false }
  else
    { state := LoadState.PartiallyReady successCount,
      warnings := [(successCount, totalFrames)], isLoading := false }

/-- C6: after settlement, `successCount < totalFrames` yields state
`PartiallyReady` with exactly one warning recording
`(successCount, totalFrames)` and the loading flag cleared (normal
termination); `successCount = totalFrames` yields `Ready` with no
warning. -/
theorem settleLoad_states (successCount totalFrames : ℕ) :
    (successCount < totalFrames →
      settleLoad successCount totalFrames =
        { state := LoadState.PartiallyReady successCount,
          warnings := [(successCount, totalFrames)], isLoading := false }) ∧
    (successCount = totalFrames →
      settleLoad successCount totalFrames =
        { state := LoadState.Ready successCount, warnings := [],
          isLoading := false }) := by
  constructor
  · intro h
    unfold settleLoad
    rw [if_neg (Nat.ne_of_lt h)]
  · intro h
    unfold settleLoad
    rw [if_pos h]

/-- Witness for C6: a partial load of 1 of 2 frames, and a full one of
2 of 2. -/
theorem settleLoad_states_witness :
    settleLoad 1 2 =
      { state := LoadState.PartiallyReady 1, warnings := [(1, 2)],
        isLoading := false } ∧
    settleLoad 2 2 =
      { state := LoadState.Ready 2, warnings := [], isLoading := false } :=
  ⟨(settleLoad_states 1 2).1 (by decide), (settleLoad_states 2 2).2 rfl⟩

/-- C7 counterexample: resolving the first-frame fetch with a failure
leaves `isFirstImageLoaded` false — the promise has resolved (`processed`
advanced) but the flag did not flip, contrary to the claim that it flips in
the failure case too. -/
theorem firstFrame_flag_not_flipped_on_failure :
    (applyFetchResult initState (0, none)).firstLoaded = false ∧
    (applyFetchResult initState (0, none)).processed = 1 := by
  exact ⟨rfl, rfl⟩

/-- C7 amended: the first-frame fetch flips `isFirstImageLoaded` as soon as
it resolves in the success case only — independently of the other fetches
(from any intermediate state, a successful first-frame resolution sets the
flag); on failure the flag stays unset while the promise still resolves. -/
theorem firstFrame_flag_flips_on_success_only (o : Option Image) :
    (applyFetchResult initState (0, o)).firstLoaded = o.isSome ∧
    (applyFetchResult initState (0, o)).processed =
      initState.processed + 1 ∧
    ∀ (st : LoaderState) (img : Image),
      (applyFetchResult st (0, some img)).firstLoaded = true := by
  refine ⟨?_, ?_, ?_⟩
  · cases o with
    | none => rfl
    | some img => rfl
  · cases o with
    | none => rfl
    | some img => rfl
  · intro st img
    rfl

/-- The guard at the top of the renderer's bind effect:
`if (isLoading || imageFrames.length !== totalFrames || !canvasRef.current
|| !containerRef.current || !textBoxRef.current) return;` — true means the
effect returns early and the renderer does not bind. -/
def bindEffectReturnsEarly (isLoading : Bool) (framesLen totalFrames : ℕ)
    (canvasRefSet containerRefSet textBoxRefSet : Bool) : Bool :=
  isLoading || framesLen != totalFrames || !canvasRefSet ||
    !containerRefSet || !textBoxRefSet

/-- C3 counterexample: a settled partial load (loading flag cleared, 1 of 2
frames loaded, all refs present) makes the bind effect return early — the
renderer does not proceed to bind with the shorter FrameSet, contrary to
the claim. -/
theorem bindEffect_rejects_partial_load :
    bindEffectReturnsEarly false 1 2 true true true = true := by
  decide

/-- C3 amended: when the load settles with fewer frames than configured,
the bind effect's guard always returns early (the renderer never binds a
FrameSet shorter than `totalFrames`); the frame-index clamp itself does
clamp against the configured `totalFrames` — the index `totalFrames - 1` is
produced, which exceeds the last position of the shorter loaded set. -/
theorem bindEffect_partial_load_guard (isLoading : Bool)
    (framesLen totalFrames : ℕ) (a b c : Bool)
    (h : framesLen < totalFrames) :
    bindEffectReturnsEarly isLoading framesLen totalFrames a b c = true ∧
    frameIndexClamp totalFrames ((totalFrames : ℚ) - 1) =
      (totalFrames : ℤ) - 1 ∧
    (framesLen : ℤ) - 1 < (totalFrames : ℤ) - 1 := by
  have hT : 1 ≤ totalFrames := Nat.one_le_of_lt (Nat.lt_of_le_of_lt (Nat.zero_le _) h)
  refine ⟨?_, ?_, ?_⟩
  · unfold bindEffectReturnsEarly
    have hne : (framesLen != totalFrames) = true := by
      simp [bne_iff_ne]
      omega
    rw [hne]
    simp
  · unfold frameIndexClamp
    have hcast : ((totalFrames : ℚ) - 1) = (((totalFrames : ℤ) - 1 : ℤ) : ℚ) := by
      push_cast
      ring
    rw [hcast, Int.floor_intCast]
    have hTZ : (0 : ℤ) ≤ (totalFrames : ℤ) - 1 := by
      have : (1 : ℤ) ≤ (totalFrames : ℤ) := by exact_mod_cast hT
      omega
    rw [max_eq_right hTZ, min_self]
  · have : (framesLen : ℤ) < (totalFrames : ℤ) := by exact_mod_cast h
    omega

/-- Witness for the amended C3 at a settled partial load of 1 of 2 frames. -/
theorem bindEffect_partial_load_guard_witness :
    bindEffectReturnsEarly false 1 2 true true true = true ∧
    frameIndexClamp 2 (((2 : ℕ) : ℚ) - 1) = ((2 : ℕ) : ℤ) - 1 ∧
    ((1 : ℕ) : ℤ) - 1 < ((2 : ℕ) : ℤ) - 1 :=
  bindEffect_partial_load_guard false 1 2 true true true (by decide)

lemma drawFrame_found (totalFrames : ℕ) (imageFrames : List Image)
    (index : ℚ) (canvas : Canvas) (img : Image)
    (h : getFrame imageFrames (frameIndexClamp totalFrames index) =
      some img) :
    (drawFrame totalFrames imageFrames index canvas).width = img.width ∧
    (drawFrame totalFrames imageFrames index canvas).height = img.height ∧
    (drawFrame totalFrames imageFrames index canvas).reallocCount =
      (if canvas.width = img.width ∧ canvas.height = img.height then
        canvas.reallocCount else canvas.reallocCount + 1) ∧
    (drawFrame totalFrames imageFrames index canvas).ops =
      canvas.ops ++
        [CanvasOp.clearRect img.width img.height,
         CanvasOp.drawImage img img.width img.height] := by
  unfold drawFrame
  rw [h]
  dsimp only
  by_cases hc : canvas.width = img.width ∧ canvas.height = img.height
  · rw [if_pos hc]
    have hcond : ¬(canvas.width ≠ img.width ∨ canvas.height ≠ img.height) := by
      push_neg
      exact hc
    rw [if_neg hcond]
    exact ⟨hc.1, hc.2, rfl, rfl⟩
  · rw [if_neg hc]
    have hcond : canvas.width ≠ img.width ∨ canvas.height ≠ img.height := by
      by_contra hcon
      push_neg at hcon
      exact hc hcon
    rw [if_pos hcond]
    exact ⟨rfl, rfl, rfl, rfl⟩

/-- C8: when the clamped index selects a frame, paint resizes the backing
buffer exactly when the frame's natural dimensions differ from the
surface's current dimensions: the result has the frame's dimensions; the
reallocation count is unchanged iff the dimensions already matched; a
second paint selecting a frame with the same dimensions as the first
leaves the buffer dimensions and allocation count unchanged, while one
with different dimensions resizes exactly to the new dimensions. -/
theorem drawFrame_resize_behavior (totalFrames : ℕ)
    (imageFrames : List Image) (idx1 idx2 : ℚ) (canvas : Canvas)
    (img1 img2 : Image)
    (h1 : getFrame imageFrames (frameIndexClamp totalFrames idx1) =
      some img1)
    (h2 : getFrame imageFrames (frameIndexClamp totalFrames idx2) =
      some img2) :
    ((drawFrame totalFrames imageFrames idx1 canvas).width = img1.width ∧
     (drawFrame totalFrames imageFrames idx1 canvas).height = img1.height) ∧
    ((drawFrame totalFrames imageFrames idx1 canvas).reallocCount =
        canvas.reallocCount ↔
      (canvas.width = img1.width ∧ canvas.height = img1.height)) ∧
    (img2.width = img1.width ∧ img2.height = img1.height →
      (drawFrame totalFrames imageFrames idx2
          (drawFrame totalFrames imageFrames idx1 canvas)).width =
        (drawFrame totalFrames imageFrames idx1 canvas).width ∧
      (drawFrame totalFrames imageFrames idx2
          (drawFrame totalFrames imageFrames idx1 canvas)).height =
        (drawFrame totalFrames imageFrames idx1 canvas).height ∧
      (drawFrame totalFrames imageFrames idx2
          (drawFrame totalFrames imageFrames idx1 canvas)).reallocCount =
        (drawFrame totalFrames imageFrames idx1 canvas).reallocCount) ∧
    (¬(img2.width = img1.width ∧ img2.height = img1.height) →
      (drawFrame totalFrames imageFrames idx2
          (drawFrame totalFrames imageFrames idx1 canvas)).width =
        img2.width ∧
      (drawFrame totalFrames imageFrames idx2
          (drawFrame totalFrames imageFrames idx1 canvas)).height =
        img2.height ∧
      (drawFrame totalFrames imageFrames idx2
          (drawFrame totalFrames imageFrames idx1 canvas)).reallocCount =
        (drawFrame totalFrames imageFrames idx1 canvas).reallocCount + 1) := by
  obtain ⟨hw1, hh1, hr1, -⟩ :=
    drawFrame_found totalFrames imageFrames idx1 canvas img1 h1
  obtain ⟨hw2, hh2, hr2, -⟩ :=
    drawFrame_found totalFrames imageFrames idx2
      (drawFrame totalFrames imageFrames idx1 canvas) img2 h2
  refine ⟨⟨hw1, hh1⟩, ?_, ?_, ?_⟩
  · rw [hr1]
    by_cases hc : canvas.width = img1.width ∧ canvas.height = img1.height
    · rw [if_pos hc]
      simp [hc]
    · rw [if_neg hc]
      simp [hc]
  · intro hsame
    have hc : (drawFrame totalFrames imageFrames idx1 canvas).width =
        img2.width ∧
        (drawFrame totalFrames imageFrames idx1 canvas).height =
          img2.height := by
      rw [hw1, hh1, hsame.1, hsame.2]
      exact ⟨rfl, rfl⟩
    rw [hr2, if_pos hc]
    refine ⟨?_, ?_, rfl⟩
    · rw [hw2, hw1, hsame.1]
    · rw [hh2, hh1, hsame.2]
  · intro hdiff
    have hc : ¬((drawFrame totalFrames imageFrames idx1 canvas).width =
        img2.width ∧
        (drawFrame totalFrames imageFrames idx1 canvas).height =
          img2.height) := by
      rw [hw1, hh1]
      intro hcon
      exact hdiff ⟨hcon.1.symm, hcon.2.symm⟩
    rw [hr2, if_neg hc]
    exact ⟨hw2, hh2, rfl⟩

/-- Witness for C8: two frames with identical dimensions followed by the
iff and second-call facts at a concrete canvas. -/
theorem drawFrame_resize_behavior_witness :
    ((drawFrame 2 [Image.mk 4 3, Image.mk 4 3] 0
        (Canvas.mk 0 0 0 [])).width = (Image.mk 4 3).width ∧
     (drawFrame 2 [Image.mk 4 3, Image.mk 4 3] 0
        (Canvas.mk 0 0 0 [])).height = (Image.mk 4 3).height) ∧
    ((drawFrame 2 [Image.mk 4 3, Image.mk 4 3] 0
        (Canvas.mk 0 0 0 [])).reallocCount = (Canvas.mk 0 0 0 []).reallocCount ↔
      ((Canvas.mk 0 0 0 []).width = (Image.mk 4 3).width ∧
       (Canvas.mk 0 0 0 []).height = (Image.mk 4 3).height)) ∧
    ((Image.mk 4 3).width = (Image.mk 4 3).width ∧
        (Image.mk 4 3).height = (Image.mk 4 3).height →
      (drawFrame 2 [Image.mk 4 3, Image.mk 4 3] 1
          (drawFrame 2 [Image.mk 4 3, Image.mk 4 3] 0
            (Canvas.mk 0 0 0 []))).width =
        (drawFrame 2 [Image.mk 4 3, Image.mk 4 3] 0
          (Canvas.mk 0 0 0 [])).width ∧
      (drawFrame 2 [Image.mk 4 3, Image.mk 4 3] 1
          (drawFrame 2 [Image.mk 4 3, Image.mk 4 3] 0
            (Canvas.mk 0 0 0 []))).height =
        (drawFrame 2 [Image.mk 4 3, Image.mk 4 3] 0
          (Canvas.mk 0 0 0 [])).height ∧
      (drawFrame 2 [Image.mk 4 3, Image.mk 4 3] 1
          (drawFrame 2 [Image.mk 4 3, Image.mk 4 3] 0
            (Canvas.mk 0 0 0 []))).reallocCount =
        (drawFrame 2 [Image.mk 4 3, Image.mk 4 3] 0
          (Canvas.mk 0 0 0 [])).reallocCount) ∧
    (¬((Image.mk 4 3).width = (Image.mk 4 3).width ∧
        (Image.mk 4 3).height = (Image.mk 4 3).height) →
      (drawFrame 2 [Image.mk 4 3, Image.mk 4 3] 1
          (drawFrame 2 [Image.mk 4 3, Image.mk 4 3] 0
            (Canvas.mk 0 0 0 []))).width = (Image.mk 4 3).width ∧
      (drawFrame 2 [Image.mk 4 3, Image.mk 4 3] 1
          (drawFrame 2 [Image.mk 4 3, Image.mk 4 3] 0
            (Canvas.mk 0 0 0 []))).height = (Image.mk 4 3).height ∧
      (drawFrame 2 [Image.mk 4 3, Image.mk 4 3] 1
          (drawFrame 2 [Image.mk 4 3, Image.mk 4 3] 0
            (Canvas.mk 0 0 0 []))).reallocCount =
        (drawFrame 2 [Image.mk 4 3, Image.mk 4 3] 0
          (Canvas.mk 0 0 0 [])).reallocCount + 1) :=
  drawFrame_resize_behavior 2 [Image.mk 4 3, Image.mk 4 3] 0 1
    (Canvas.mk 0 0 0 []) (Image.mk 4 3) (Image.mk 4 3) (by decide) (by decide)

/-- C10: for every real index and every canvas, if the frame collection has
no element at the clamped index, `drawFrame` returns the canvas unchanged —
no resize, no clear, no draw — and, being a total function, without
throwing. -/
theorem drawFrame_missing_frame_noop (totalFrames : ℕ)
    (imageFrames : List Image) (index : ℚ) (canvas : Canvas)
    (h : getFrame imageFrames (frameIndexClamp totalFrames index) = none) :
    drawFrame totalFrames imageFrames index canvas = canvas := by
  unfold drawFrame
  rw [h]

/-- Witness for C10: 48 configured frames but only one loaded; index 47
clamps to 47, which is past the end of the loaded set, and the canvas is
untouched. -/
theorem drawFrame_missing_frame_noop_witness :
    drawFrame 48 [Image.mk 4 3] 47 (Canvas.mk 7 9 2 []) =
      Canvas.mk 7 9 2 [] :=
  drawFrame_missing_frame_noop 48 [Image.mk 4 3] 47 (Canvas.mk 7 9 2 [])
    (by decide)

/-- The hard-coded reveal start frame in the bind effect:
`const START_FRAME = 30`. -/
def START_FRAME : ℕ := 30

/-- The placement of the reveal track on the shared progress timeline:
`const startTime = START_FRAME / (totalFrames - 1)`. -/
def startTime (totalFrames : ℕ) : ℚ :=
  (START_FRAME : ℚ) / ((totalFrames : ℚ) - 1)

/-- The initialization `gsap.set(textBox, { y: 100, opacity: 0 })`
performed at binding time: vertical offset 100, opacity 0. -/
def textBoxBindInit : ℚ × ℚ := (100, 0)

/-- The `power2.out` easing curve of the reveal tween. -/
def power2Out (x : ℚ) : ℚ := 1 - (1 - x) ^ 2

/-- Modelled from the spec: the timeline/tween capability is an external
collaborator (the scroll-pinning/timeline engine), not part of this
repository.  A tween placed at position `pos` leaves its target at the
initialized value for timeline times before `pos`, eases from the initial
value toward the target value over `[pos, pos + dur]`, and holds the
target value from `pos + dur` on; the spec has the reveal track run to the
end of the scroll budget, so the renderer passes `dur = 1 - pos`. -/
def tweenTrack (pos dur initVal targetVal : ℚ) (ease : ℚ → ℚ) (t : ℚ) : ℚ :=
  if t < pos then initVal
  else if pos + dur ≤ t then targetVal
  else initVal + (targetVal - initVal) * ease ((t - pos) / dur)

/-- The text box's vertical offset as a function of shared scroll progress:
initialized to 100 and tweened to 0 by
`tl.to(textBox, { y: 0, opacity: 1, ease: power2.out }, startTime)`. -/
def textBoxY (totalFrames : ℕ) (t : ℚ) : ℚ :=
  tweenTrack (startTime totalFrames) (1 - startTime totalFrames) 100 0
    power2Out t

/-- The text box's opacity as a function of shared scroll progress:
initialized to 0 and tweened to 1 by the same tween. -/
def textBoxOpacity (totalFrames : ℕ) (t : ℚ) : ℚ :=
  tweenTrack (startTime totalFrames) (1 - startTime totalFrames) 0 1
    power2Out t

/-- C9: at binding time the text box starts at vertical offset 100 and
opacity 0; the eased reveal track toward offset 0 / opacity 1 is placed at
normalized time `START_FRAME / (totalFrames - 1)` — which is 30/47 for
totalFrames = 48 — so for every progress below that threshold the text box
remains at offset 100 / opacity 0 (and reaches offset 0 / opacity 1 by the
end of the budget). -/
theorem textBox_reveal_threshold (t : ℚ) (h0 : 0 ≤ t)
    (hlt : t < startTime 48) :
    textBoxBindInit = (100, 0) ∧
    startTime 48 = 30 / 47 ∧
    textBoxY 48 t = 100 ∧
    textBoxOpacity 48 t = 0 ∧
    textBoxY 48 1 = 0 ∧
    textBoxOpacity 48 1 = 1 := by
  have hs : startTime 48 = 30 / 47 := by
    unfold startTime START_FRAME
    norm_num
  refine ⟨rfl, hs, ?_, ?_, ?_, ?_⟩
  · unfold textBoxY tweenTrack
    rw [if_pos hlt]
  · unfold textBoxOpacity tweenTrack
    rw [if_pos hlt]
  · unfold textBoxY tweenTrack
    rw [hs]
    norm_num
  · unfold textBoxOpacity tweenTrack
    rw [hs]
    norm_num

/-- Witness for C9 at progress t = 1/2 (below the 30/47 threshold). -/
theorem textBox_reveal_threshold_witness :
    textBoxBindInit = (100, 0) ∧
    startTime 48 = 30 / 47 ∧
    textBoxY 48 (1/2) = 100 ∧
    textBoxOpacity 48 (1/2) = 0 ∧
    textBoxY 48 1 = 0 ∧
    textBoxOpacity 48 1 = 1 :=
  textBox_reveal_threshold (1/2) (by norm_num)
    (by unfold startTime START_FRAME; norm_num)
